import Mathlib

/-
Verification of the ColdCaller orchestration core (src/coldcaller/utils.py).

The Python module is a thin asynchronous orchestration layer: it opens one
authenticated client session per account, performs a bounded sequence of
remote calls (verify own profile / leave every guild / unblock every blocked
user), classifies failures (Forbidden, HTTPException, anything else) and fans
the per-account operations out over a list of accounts.

The embedding below models each operation as a pure function from the
outcomes of its remote calls (given as data) to the trace of observable
events it performs (session open/close, profile fetches, log entries, sleeps,
leave/unblock attempts) together with its result: a returned value or a
propagating unclassified exception.  Possibly non-terminating operations
(the unbounded retry loop of verify_account) take the list of successive
remote outcomes as input and return none when that list is exhausted.
-/

namespace ColdCaller

/-- Outcome of one fetch_user_profile call inside verify_account:
success, discord.Forbidden, a discord.HTTPException that is not Forbidden,
or any other exception. -/
inductive FetchResult where
  | ok : FetchResult
  | forbidden : FetchResult
  | httpError : FetchResult
  | otherError : FetchResult
deriving DecidableEq, Repr

/-- Outcome of one guild.leave() or user.unblock() call: success,
a discord.HTTPException, or any other exception. -/
inductive LeaveResult where
  | ok : LeaveResult
  | httpError : LeaveResult
  | otherError : LeaveResult
deriving DecidableEq, Repr

/-- An exception that propagates out of an operation (the bare
`except Exception: raise` path of the source). -/
inductive PyErr where
  | unclassified : PyErr
deriving DecidableEq, Repr

/-- Result of a Python coroutine: a returned value or a raised exception. -/
inductive PyResult (α : Type) where
  | ok : α → PyResult α
  | raised : PyErr → PyResult α
deriving DecidableEq, Repr

/-- One guild enumerated by client.guilds, together with the outcome its
guild.leave() call would produce. -/
structure GuildSpec where
  gid : Nat
  result : LeaveResult
deriving DecidableEq, Repr

/-- One user enumerated by client.users: whether it is the client.user object
itself (Python object identity), what user.is_blocked() returns, and the
outcome its user.unblock() call would produce. -/
structure UserSpec where
  uid : Nat
  is_self : Bool
  blocked : Bool
  result : LeaveResult
deriving DecidableEq, Repr

/-- Observable events of one per-account operation. -/
inductive Event where
  | sessionOpen : Event
  | sessionClose : Event
  | fetchProfile : Event
  | logError : Event
  | logInfo : Event
  | logWarning : Event
  | sleep : Nat → Event
  | leaveGuild : Nat → Event
  | unblockUser : UserSpec → Event
deriving DecidableEq, Repr

/-- The __aexit__ of _ClientContextManager: close the session only if it is
not already closed.  The events it emits, as a function of is_closed(). -/
def aexit_close (closedAlready : Bool) : List Event :=
  if closedAlready then [] else [Event.sessionClose]

/-- verify_account, driven by the list of outcomes of its successive
fetch_user_profile calls (one per recursive attempt; each attempt opens a
fresh session).  Returns none when the outcome list is exhausted, modelling
the unbounded retry loop running past the supplied outcomes.  Forbidden
logs an error and returns false; an HTTPException sleeps 90 and retries the
whole operation from scratch inside the still-open outer session, which is
closed after the recursive call finishes; any other exception propagates
after the session is closed; success logs info and returns true. -/
def verify_account : List FetchResult → Option (List Event × PyResult Bool)
  | [] => none
  | r :: rest =>
    match r with
    | .ok =>
        some ([Event.sessionOpen, Event.fetchProfile, Event.logInfo]
                ++ aexit_close false, .ok true)
    | .forbidden =>
        some ([Event.sessionOpen, Event.fetchProfile, Event.logError]
                ++ aexit_close false, .ok false)
    | .otherError =>
        some ([Event.sessionOpen, Event.fetchProfile]
                ++ aexit_close false, .raised .unclassified)
    | .httpError =>
        match verify_account rest with
        | none => none
        | some (evs, res) =>
            some ([Event.sessionOpen, Event.fetchProfile, Event.sleep 90]
                    ++ evs ++ aexit_close false, res)

/-- The guild loop of leave_all: try guild.leave(); on HTTPException log a
warning and continue; on any other exception re-raise; on success log info;
in all cases the finally block sleeps 10 before the next step, also when
the exception is about to propagate. -/
def leave_guilds : List GuildSpec → List Event × PyResult Unit
  | [] => ([], .ok ())
  | g :: rest =>
    match g.result with
    | .ok =>
        let (evs, r) := leave_guilds rest
        ([Event.leaveGuild g.gid, Event.logInfo, Event.sleep 10] ++ evs, r)
    | .httpError =>
        let (evs, r) := leave_guilds rest
        ([Event.leaveGuild g.gid, Event.logWarning, Event.sleep 10] ++ evs, r)
    | .otherError =>
        ([Event.leaveGuild g.gid, Event.sleep 10], .raised .unclassified)

/-- leave_all: open a session, run the guild loop, close the session on
scope exit whether the loop returned or raised. -/
def leave_all (gs : List GuildSpec) : List Event × PyResult Unit :=
  let (evs, r) := leave_guilds gs
  (Event.sessionOpen :: evs ++ aexit_close false, r)

/-- The user loop of unblock_all: skip the client.user object itself, skip
users that are not blocked, and for the rest try user.unblock() with the
same HTTPException-warn-continue / other-raise / finally-sleep-10 shape as
the guild loop. -/
def unblock_users : List UserSpec → List Event × PyResult Unit
  | [] => ([], .ok ())
  | u :: rest =>
    if u.is_self then unblock_users rest
    else if u.blocked then
      match u.result with
      | .ok =>
          let (evs, r) := unblock_users rest
          ([Event.unblockUser u, Event.logInfo, Event.sleep 10] ++ evs, r)
      | .httpError =>
          let (evs, r) := unblock_users rest
          ([Event.unblockUser u, Event.logWarning, Event.sleep 10] ++ evs, r)
      | .otherError =>
          ([Event.unblockUser u, Event.sleep 10], .raised .unclassified)
    else unblock_users rest

/-- unblock_all: open a session, run the user loop, close the session on
scope exit whether the loop returned or raised. -/
def unblock_all (us : List UserSpec) : List Event × PyResult Unit :=
  let (evs, r) := unblock_users us
  (Event.sessionOpen :: evs ++ aexit_close false, r)

/-- Task-level events of a batch fan-out over accounts of type α:
loop.create_task(op(account)) and await task. -/
inductive BatchEvent (α : Type) where
  | create : α → BatchEvent α
  | await : α → BatchEvent α
deriving DecidableEq, Repr

/-- The first loop of each fan-out: create one task per account, in input
order, before any task is awaited.  Returns the task list and the creation
events. -/
def spawn_loop {α : Type} : List α → List α × List (BatchEvent α)
  | [] => ([], [])
  | a :: rest =>
      let (ts, evs) := spawn_loop rest
      (a :: ts, BatchEvent.create a :: evs)

/-- The second loop of unblock_all_as_all and leave_all_as_all: await each
task in launch order; the first raised exception propagates to the caller
and the remaining tasks are never awaited.  A task given as none never
finishes, so neither does the await. -/
def await_loop {α : Type} (res : α → Option (PyResult Unit)) :
    List α → List (BatchEvent α) × Option (PyResult Unit)
  | [] => ([], some (.ok ()))
  | a :: rest =>
    match res a with
    | none => ([BatchEvent.await a], none)
    | some (.raised e) => ([BatchEvent.await a], some (.raised e))
    | some (.ok _) =>
        let (evs, r) := await_loop res rest
        (BatchEvent.await a :: evs, r)

/-- The two-loop fan-out shared by unblock_all_as_all and leave_all_as_all:
create every task, then await them in launch order. -/
def run_batch {α : Type} (res : α → Option (PyResult Unit)) (accounts : List α) :
    List (BatchEvent α) × Option (PyResult Unit) :=
  let (ts, cevs) := spawn_loop accounts
  let (aevs, r) := await_loop res ts
  (cevs ++ aevs, r)

/-- leave_all_as_all: fan leave_all out over a list of accounts, each given
by the guild list its session would enumerate. -/
def leave_all_as_all (accounts : List (List GuildSpec)) :
    List (BatchEvent (List GuildSpec)) × Option (PyResult Unit) :=
  run_batch (fun gs => some (leave_all gs).2) accounts

/-- unblock_all_as_all: fan unblock_all out over a list of accounts, each
given by the user list its session would enumerate. -/
def unblock_all_as_all (accounts : List (List UserSpec)) :
    List (BatchEvent (List UserSpec)) × Option (PyResult Unit) :=
  run_batch (fun us => some (unblock_all us).2) accounts

/-- An account as seen by verify_all: an identifying token plus the
outcomes of the successive profile fetches its verification would perform. -/
abbrev VAccount := Nat × List FetchResult

/-- The result of the verification task of one account. -/
def verify_result (a : VAccount) : Option (PyResult Bool) :=
  (verify_account a.2).map Prod.snd

/-- The second loop of verify_all: await each verification task in launch
order and append the account to good_accounts when it returned true; a
raised exception propagates at the point the failing task is awaited. -/
def verify_await : List VAccount → List (BatchEvent VAccount) × Option (PyResult (List VAccount))
  | [] => ([], some (.ok []))
  | a :: rest =>
    match verify_result a with
    | none => ([BatchEvent.await a], none)
    | some (.raised e) => ([BatchEvent.await a], some (.raised e))
    | some (.ok b) =>
      match verify_await rest with
      | (evs, none) => (BatchEvent.await a :: evs, none)
      | (evs, some (.raised e)) => (BatchEvent.await a :: evs, some (.raised e))
      | (evs, some (.ok good)) =>
          (BatchEvent.await a :: evs, some (.ok (if b then a :: good else good)))

/-- verify_all: create one verification task per account, then await them
in launch order, collecting the accounts in good standing. -/
def verify_all (accounts : List VAccount) :
    List (BatchEvent VAccount) × Option (PyResult (List VAccount)) :=
  let (ts, cevs) := spawn_loop accounts
  let (aevs, r) := verify_await ts
  (cevs ++ aevs, r)

/-- get_logging_level: match name.upper() against the seven level names,
defaulting to NOTSET (0).  Strings are modelled as lists of characters and
the upper-casing of Python on ASCII as Char.toUpper.  A Python match
statement over string literal patterns dispatches by equality, so it is
embedded as a chain of equality tests in pattern order. -/
def get_logging_level (name : List Char) : Nat :=
  let u := name.map Char.toUpper
  if u = ['C', 'R', 'I', 'T', 'I', 'C', 'A', 'L'] then 50
  else if u = ['F', 'A', 'T', 'A', 'L'] then 50
  else if u = ['E', 'R', 'R', 'O', 'R'] then 40
  else if u = ['W', 'A', 'R', 'N', 'I', 'N', 'G'] then 30
  else if u = ['W', 'A', 'R', 'N'] then 30
  else if u = ['I', 'N', 'F', 'O'] then 20
  else if u = ['D', 'E', 'B', 'U', 'G'] then 10
  else 0

/-- Spec-side lookup, written from the words of the claim: the seven level
names map to their numeric logging levels and every other (already
upper-cased) string maps to NOTSET = 0. -/
def logging_level_of_name_spec (u : List Char) : Nat :=
  if u = ['C', 'R', 'I', 'T', 'I', 'C', 'A', 'L'] then 50
  else if u = ['F', 'A', 'T', 'A', 'L'] then 50
  else if u = ['E', 'R', 'R', 'O', 'R'] then 40
  else if u = ['W', 'A', 'R', 'N', 'I', 'N', 'G'] then 30
  else if u = ['W', 'A', 'R', 'N'] then 30
  else if u = ['I', 'N', 'F', 'O'] then 20
  else if u = ['D', 'E', 'B', 'U', 'G'] then 10
  else 0

/-- Total time slept in a trace. -/
def total_sleep (evs : List Event) : Nat :=
  (evs.map fun e => match e with | .sleep n => n | _ => 0).sum

/-- Is this event the fixed 10 time-unit pacing delay? -/
def Event.isSleepTen : Event → Bool
  | .sleep 10 => true
  | _ => false

/-- Is this event a guild.leave() attempt? -/
def Event.isLeaveAttempt : Event → Bool
  | .leaveGuild _ => true
  | _ => false

/-- Is this event a user.unblock() attempt? -/
def Event.isUnblockAttempt : Event → Bool
  | .unblockUser _ => true
  | _ => false

/-- The user a user.unblock() attempt was made on, if any. -/
def Event.unblockTarget : Event → Option UserSpec
  | .unblockUser u => some u
  | _ => none

/-- The users on which user.unblock() was attempted, in order. -/
def unblock_attempts (evs : List Event) : List UserSpec :=
  evs.filterMap Event.unblockTarget

/-- Is this batch event a loop.create_task call? -/
def BatchEvent.isCreate {α : Type} : BatchEvent α → Bool
  | .create _ => true
  | _ => false

/-- Closed form of the users the user loop attempts to unblock: the
enumerated users that are not the client.user object and are blocked,
truncated after the first attempt whose unblock raises an unclassified
exception. -/
def attempted_users : List UserSpec → List UserSpec
  | [] => []
  | u :: rest =>
    if u.is_self then attempted_users rest
    else if u.blocked then
      if u.result = LeaveResult.otherError then [u]
      else u :: attempted_users rest
    else attempted_users rest

/-
Helper lemmas about the embedding.
-/

theorem spawn_loop_fst {α : Type} (l : List α) : (spawn_loop l).1 = l := by
  induction l with
  | nil => rfl
  | cons a rest ih => simp [spawn_loop, ih]

theorem spawn_loop_snd {α : Type} (l : List α) :
    (spawn_loop l).2 = l.map BatchEvent.create := by
  induction l with
  | nil => rfl
  | cons a rest ih => simp [spawn_loop, ih]

theorem countP_isCreate_map_create {α : Type} (l : List α) :
    (l.map BatchEvent.create).countP BatchEvent.isCreate = l.length := by
  induction l with
  | nil => rfl
  | cons a rest ih => simp [List.countP_cons, BatchEvent.isCreate, ih]

theorem await_loop_first_failure {α : Type} (res : α → Option (PyResult Unit))
    (pre post : List α) (bad : α) (e : PyErr)
    (hpre : ∀ a ∈ pre, res a = some (PyResult.ok ()))
    (hbad : res bad = some (PyResult.raised e)) :
    await_loop res (pre ++ bad :: post)
      = ((pre ++ [bad]).map BatchEvent.await, some (PyResult.raised e)) := by
  induction pre with
  | nil => simp [await_loop, hbad]
  | cons a rest ih =>
    have ha : res a = some (PyResult.ok ()) := hpre a (by simp)
    have ih2 := ih (fun x hx => hpre x (by simp [hx]))
    simp [await_loop, ha, ih2]

theorem run_batch_first_failure {α : Type} (res : α → Option (PyResult Unit))
    (pre post : List α) (bad : α) (e : PyErr)
    (hpre : ∀ a ∈ pre, res a = some (PyResult.ok ()))
    (hbad : res bad = some (PyResult.raised e)) :
    run_batch res (pre ++ bad :: post)
      = ((pre ++ bad :: post).map BatchEvent.create ++ (pre ++ [bad]).map BatchEvent.await,
         some (PyResult.raised e)) := by
  rcases hsp : spawn_loop (pre ++ bad :: post) with ⟨ts, cevs⟩
  have h1 := spawn_loop_fst (pre ++ bad :: post)
  have h2 := spawn_loop_snd (pre ++ bad :: post)
  rw [hsp] at h1 h2
  simp only at h1 h2
  subst h1
  subst h2
  simp [run_batch, hsp, await_loop_first_failure res pre post bad e hpre hbad]

theorem verify_await_collects (l : List VAccount)
    (h : ∀ a ∈ l, ∃ b, verify_result a = some (PyResult.ok b)) :
    (verify_await l).2
      = some (PyResult.ok (l.filter fun a => verify_result a = some (PyResult.ok true))) := by
  induction l with
  | nil => simp [verify_await]
  | cons a rest ih =>
    obtain ⟨b, hb⟩ := h a (by simp)
    have ih2 := ih (fun x hx => h x (by simp [hx]))
    rcases hva : verify_await rest with ⟨evs, r⟩
    rw [hva] at ih2
    simp at ih2
    subst ih2
    rcases hbv : b <;> subst hbv <;>
      simp [verify_await, hb, hva, List.filter]

theorem verify_await_no_creates (l : List VAccount) :
    (verify_await l).1.countP BatchEvent.isCreate = 0 := by
  induction l with
  | nil => rfl
  | cons a rest ih =>
    rcases hva : verify_await rest with ⟨evs, r⟩
    rw [hva] at ih
    rcases hr : verify_result a with _ | br
    · simp [verify_await, hr, List.countP_cons, BatchEvent.isCreate]
    · rcases br with b | e
      · rcases r with _ | r2
        · simp [verify_await, hr, hva, List.countP_cons, BatchEvent.isCreate, ih]
        · rcases r2 with g | e2 <;>
            simp [verify_await, hr, hva, List.countP_cons, BatchEvent.isCreate, ih]
      · simp [verify_await, hr, List.countP_cons, BatchEvent.isCreate]

theorem verify_await_first_failure (pre post : List VAccount) (bad : VAccount) (e : PyErr)
    (hpre : ∀ a ∈ pre, ∃ b, verify_result a = some (PyResult.ok b))
    (hbad : verify_result bad = some (PyResult.raised e)) :
    verify_await (pre ++ bad :: post)
      = ((pre ++ [bad]).map BatchEvent.await, some (PyResult.raised e)) := by
  induction pre with
  | nil => simp [verify_await, hbad]
  | cons a rest ih =>
    obtain ⟨b, hb⟩ := hpre a (by simp)
    have ih2 := ih (fun x hx => hpre x (by simp [hx]))
    simp [verify_await, hb, ih2]

theorem verify_all_first_failure (pre post : List VAccount) (bad : VAccount) (e : PyErr)
    (hpre : ∀ a ∈ pre, ∃ b, verify_result a = some (PyResult.ok b))
    (hbad : verify_result bad = some (PyResult.raised e)) :
    verify_all (pre ++ bad :: post)
      = ((pre ++ bad :: post).map BatchEvent.create ++ (pre ++ [bad]).map BatchEvent.await,
         some (PyResult.raised e)) := by
  rcases hsp : spawn_loop (pre ++ bad :: post) with ⟨ts, cevs⟩
  have h1 := spawn_loop_fst (pre ++ bad :: post)
  have h2 := spawn_loop_snd (pre ++ bad :: post)
  rw [hsp] at h1 h2
  simp only at h1 h2
  subst h1
  subst h2
  simp [verify_all, hsp, verify_await_first_failure pre post bad e hpre hbad]

theorem leave_guilds_sleep_count (gs : List GuildSpec) :
    (leave_guilds gs).1.countP Event.isSleepTen
      = (leave_guilds gs).1.countP Event.isLeaveAttempt := by
  induction gs with
  | nil => rfl
  | cons g rest ih =>
    rcases hrest : leave_guilds rest with ⟨evs, r⟩
    rcases hg : g.result <;>
      simp [leave_guilds, hg, hrest, List.countP_cons, Event.isSleepTen,
        Event.isLeaveAttempt] <;>
      simpa [hrest] using ih

theorem unblock_users_sleep_count (us : List UserSpec) :
    (unblock_users us).1.countP Event.isSleepTen
      = (unblock_users us).1.countP Event.isUnblockAttempt := by
  induction us with
  | nil => rfl
  | cons u rest ih =>
    rcases hrest : unblock_users rest with ⟨evs, r⟩
    rcases hs : u.is_self <;> rcases hb : u.blocked <;> rcases hu : u.result <;>
      simp [unblock_users, hs, hb, hu, hrest, List.countP_cons, Event.isSleepTen,
        Event.isUnblockAttempt] <;>
      simpa [hrest] using ih

theorem leave_guilds_fatal_ends_with_sleep (gs : List GuildSpec) (e : PyErr)
    (h : (leave_guilds gs).2 = PyResult.raised e) :
    ∃ pre, (leave_guilds gs).1 = pre ++ [Event.sleep 10] := by
  induction gs with
  | nil => simp [leave_guilds] at h
  | cons g rest ih =>
    rcases hrest : leave_guilds rest with ⟨evs, r⟩
    rcases hg : g.result
    · rw [show leave_guilds (g :: rest)
            = ([Event.leaveGuild g.gid, Event.logInfo, Event.sleep 10] ++ evs, r) from by
          simp [leave_guilds, hg, hrest]] at h ⊢
      simp only at h
      obtain ⟨pre, hpre⟩ := ih (by rw [hrest]; exact h)
      rw [hrest] at hpre
      simp only at hpre
      exact ⟨[Event.leaveGuild g.gid, Event.logInfo, Event.sleep 10] ++ pre, by simp [hpre]⟩
    · rw [show leave_guilds (g :: rest)
            = ([Event.leaveGuild g.gid, Event.logWarning, Event.sleep 10] ++ evs, r) from by
          simp [leave_guilds, hg, hrest]] at h ⊢
      simp only at h
      obtain ⟨pre, hpre⟩ := ih (by rw [hrest]; exact h)
      rw [hrest] at hpre
      simp only at hpre
      exact ⟨[Event.leaveGuild g.gid, Event.logWarning, Event.sleep 10] ++ pre, by simp [hpre]⟩
    · exact ⟨[Event.leaveGuild g.gid], by simp [leave_guilds, hg]⟩

theorem unblock_users_fatal_ends_with_sleep (us : List UserSpec) (e : PyErr)
    (h : (unblock_users us).2 = PyResult.raised e) :
    ∃ pre, (unblock_users us).1 = pre ++ [Event.sleep 10] := by
  induction us with
  | nil => simp [unblock_users] at h
  | cons u rest ih =>
    rcases hrest : unblock_users rest with ⟨evs, r⟩
    rcases hs : u.is_self
    · rcases hb : u.blocked
      · rw [show unblock_users (u :: rest) = (evs, r) from by
            simp [unblock_users, hs, hb, hrest]] at h ⊢
        obtain ⟨pre, hpre⟩ := ih (by rw [hrest]; exact h)
        rw [hrest] at hpre
        exact ⟨pre, hpre⟩
      · rcases hu : u.result
        · rw [show unblock_users (u :: rest)
                = ([Event.unblockUser u, Event.logInfo, Event.sleep 10] ++ evs, r) from by
              simp [unblock_users, hs, hb, hu, hrest]] at h ⊢
          simp only at h
          obtain ⟨pre, hpre⟩ := ih (by rw [hrest]; exact h)
          rw [hrest] at hpre
          simp only at hpre
          exact ⟨[Event.unblockUser u, Event.logInfo, Event.sleep 10] ++ pre, by simp [hpre]⟩
        · rw [show unblock_users (u :: rest)
                = ([Event.unblockUser u, Event.logWarning, Event.sleep 10] ++ evs, r) from by
              simp [unblock_users, hs, hb, hu, hrest]] at h ⊢
          simp only at h
          obtain ⟨pre, hpre⟩ := ih (by rw [hrest]; exact h)
          rw [hrest] at hpre
          simp only at hpre
          exact ⟨[Event.unblockUser u, Event.logWarning, Event.sleep 10] ++ pre, by simp [hpre]⟩
        · exact ⟨[Event.unblockUser u], by simp [unblock_users, hs, hb, hu]⟩
    · rw [show unblock_users (u :: rest) = (evs, r) from by
          simp [unblock_users, hs, hrest]] at h ⊢
      obtain ⟨pre, hpre⟩ := ih (by rw [hrest]; exact h)
      rw [hrest] at hpre
      exact ⟨pre, hpre⟩

theorem leave_guilds_no_session (gs : List GuildSpec) :
    (leave_guilds gs).1.count Event.sessionOpen = 0
      ∧ (leave_guilds gs).1.count Event.sessionClose = 0 := by
  induction gs with
  | nil => simp [leave_guilds]
  | cons g rest ih =>
    rcases hrest : leave_guilds rest with ⟨evs, r⟩
    rcases hg : g.result <;>
      simp_all [leave_guilds, hg, hrest, List.count_cons]

theorem unblock_users_no_session (us : List UserSpec) :
    (unblock_users us).1.count Event.sessionOpen = 0
      ∧ (unblock_users us).1.count Event.sessionClose = 0 := by
  induction us with
  | nil => simp [unblock_users]
  | cons u rest ih =>
    rcases hrest : unblock_users rest with ⟨evs, r⟩
    rcases hs : u.is_self <;> rcases hb : u.blocked <;> rcases hu : u.result <;>
      simp_all [unblock_users, hs, hb, hu, hrest, List.count_cons]

theorem verify_account_sessions_balanced (frs : List FetchResult) :
    ∀ evs r, verify_account frs = some (evs, r) →
      evs.count Event.sessionOpen = evs.count Event.sessionClose := by
  induction frs with
  | nil => intro evs r h; simp [verify_account] at h
  | cons f rest ih =>
    intro evs r h
    rcases hf : f <;> subst hf
    · simp [verify_account, aexit_close] at h
      rcases h with ⟨h1, h2⟩
      simp [← h1, List.count_cons]
    · simp [verify_account, aexit_close] at h
      rcases h with ⟨h1, h2⟩
      simp [← h1, List.count_cons]
    · rcases hrest : verify_account rest with _ | ⟨evs2, r2⟩
      · simp [verify_account, hrest] at h
      · simp [verify_account, hrest, aexit_close] at h
        rcases h with ⟨h1, h2⟩
        have := ih evs2 r2 hrest
        simp [← h1, List.count_cons, List.count_append, this]
    · simp [verify_account, aexit_close] at h
      rcases h with ⟨h1, h2⟩
      simp [← h1, List.count_cons]

theorem unblock_users_attempts_eq (us : List UserSpec) :
    unblock_attempts (unblock_users us).1 = attempted_users us := by
  induction us with
  | nil => rfl
  | cons u rest ih =>
    rcases hrest : unblock_users rest with ⟨evs, r⟩
    rw [hrest] at ih
    simp only [unblock_attempts] at ih ⊢
    rcases hs : u.is_self <;> rcases hb : u.blocked <;> rcases hu : u.result <;>
      simp [unblock_users, attempted_users, hs, hb, hu, hrest,
        Event.unblockTarget, ih]

theorem unblock_all_attempts_eq (us : List UserSpec) :
    unblock_attempts (unblock_all us).1 = attempted_users us := by
  rcases hus : unblock_users us with ⟨evs, r⟩
  have h := unblock_users_attempts_eq us
  rw [hus] at h
  simp only [unblock_attempts] at h ⊢
  simp [unblock_all, hus, aexit_close, Event.unblockTarget, h]

theorem attempted_users_good (us : List UserSpec) :
    ∀ v ∈ attempted_users us, v.is_self = false ∧ v.blocked = true := by
  induction us with
  | nil => simp [attempted_users]
  | cons u rest ih =>
    intro v hv
    rcases hs : u.is_self <;> rcases hb : u.blocked <;> rcases hu : u.result <;>
      simp [attempted_users, hs, hb, hu] at hv <;>
      first
        | exact ih v hv
        | (rcases hv with hv | hv
           · subst hv; exact ⟨hs, hb⟩
           · exact ih v hv)
        | (subst hv; exact ⟨hs, hb⟩)

theorem attempted_users_exact (us : List UserSpec)
    (h : ∀ u ∈ us, u.result ≠ LeaveResult.otherError) :
    attempted_users us = us.filter fun u => !u.is_self && u.blocked := by
  induction us with
  | nil => simp [attempted_users]
  | cons u rest ih =>
    have hu : u.result ≠ LeaveResult.otherError := h u (by simp)
    have ih2 := ih (fun x hx => h x (by simp [hx]))
    rcases hs : u.is_self <;> rcases hb : u.blocked <;>
      simp [attempted_users, hs, hb, hu, ih2, List.filter]

theorem char_toNat_ofNat_of_lt {n : Nat} (h : n < 55296) : (Char.ofNat n).toNat = n := by
  have hv : n.isValidChar := Or.inl h
  rw [Char.ofNat, dif_pos hv]
  rfl

theorem char_toUpper_idem (c : Char) : c.toUpper.toUpper = c.toUpper := by
  have key : ¬ (c.toUpper.toNat ≥ 97 ∧ c.toUpper.toNat ≤ 122) := by
    by_cases h : c.toNat ≥ 97 ∧ c.toNat ≤ 122
    · have h1 : c.toUpper = Char.ofNat (c.toNat - 32) := by
        simp only [Char.toUpper]
        rw [if_pos h]
      rw [h1, char_toNat_ofNat_of_lt (by omega)]
      omega
    · have h1 : c.toUpper = c := by
        simp only [Char.toUpper]
        rw [if_neg h]
      rw [h1]
      exact h
  show (if c.toUpper.toNat ≥ 97 ∧ c.toUpper.toNat ≤ 122
          then Char.ofNat (c.toUpper.toNat - 32) else c.toUpper) = c.toUpper
  rw [if_neg key]

theorem map_toUpper_idem (s : List Char) :
    (s.map Char.toUpper).map Char.toUpper = s.map Char.toUpper := by
  induction s with
  | nil => rfl
  | cons c rest ih => simp [char_toUpper_idem, ih]

/-
Claim theorems.
-/

/-- C1: for every list of accounts whose verifications each return a
boolean, verify_all launches one verification task per account and returns
exactly the sub-list of accounts whose verification returned true,
preserving the relative order of the input list. -/
theorem verify_all_returns_good_accounts_in_order (accounts : List VAccount)
    (h : ∀ a ∈ accounts, ∃ b, verify_result a = some (PyResult.ok b)) :
    (verify_all accounts).2
        = some (PyResult.ok
            (accounts.filter fun a => verify_result a = some (PyResult.ok true)))
    ∧ (verify_all accounts).1.countP BatchEvent.isCreate = accounts.length := by
  rcases hsp : spawn_loop accounts with ⟨ts, cevs⟩
  have h1 := spawn_loop_fst accounts
  have h2 := spawn_loop_snd accounts
  rw [hsp] at h1 h2
  simp only at h1 h2
  rw [h1, h2] at hsp
  constructor
  · rcases hva : verify_await accounts with ⟨aevs, r⟩
    have hc := verify_await_collects accounts h
    rw [hva] at hc
    simp only at hc
    simp [verify_all, hsp, hva, hc]
  · have hnc := verify_await_no_creates accounts
    have hev : (verify_all accounts).1
        = List.map BatchEvent.create accounts ++ (verify_await accounts).1 := by
      simp [verify_all, hsp]
    rw [hev, List.countP_append, countP_isCreate_map_create, hnc]
    exact Nat.add_zero _

/-- Witness for C1: for accounts A, B, C where the verification of B
returns false (Forbidden profile fetch) and those of A and C return true,
verify_all returns the sub-list with A and C, in order. -/
theorem verify_all_returns_good_accounts_in_order_witness :
    (verify_all
        [(1, [FetchResult.ok]), (2, [FetchResult.forbidden]), (3, [FetchResult.ok])]).2
      = some (PyResult.ok [(1, [FetchResult.ok]), (3, [FetchResult.ok])]) := by
  have h := (verify_all_returns_good_accounts_in_order
      [(1, [FetchResult.ok]), (2, [FetchResult.forbidden]), (3, [FetchResult.ok])]
      (by decide)).1
  rw [h]
  decide

/-- C2: for every account whose profile fetch fails with Forbidden,
verify_account returns false, issues exactly one error-level log entry,
performs the fetch exactly once, and never sleeps (no retry), whatever
outcomes later attempts would have had. -/
theorem verify_account_forbidden_logs_once_no_retry (rest : List FetchResult) :
    ∃ evs, verify_account (FetchResult.forbidden :: rest) = some (evs, PyResult.ok false)
      ∧ evs.count Event.fetchProfile = 1
      ∧ evs.count Event.logError = 1
      ∧ total_sleep evs = 0 :=
  ⟨[Event.sessionOpen, Event.fetchProfile, Event.logError, Event.sessionClose],
    rfl, by decide, by decide, by decide⟩

/-- C3: for an account whose profile fetch raises a generic HTTPException
exactly once and then succeeds, verify_account sleeps 90 time-units, retries
the whole operation exactly once with a fresh session (two session opens,
two fetches), returns true, and the total elapsed delay is at least 90. -/
theorem verify_account_transient_then_ok_retries_once :
    ∃ evs, verify_account [FetchResult.httpError, FetchResult.ok]
        = some (evs, PyResult.ok true)
      ∧ evs.count Event.fetchProfile = 2
      ∧ evs.count (Event.sleep 90) = 1
      ∧ evs.count Event.sessionOpen = 2
      ∧ 90 ≤ total_sleep evs :=
  ⟨[Event.sessionOpen, Event.fetchProfile, Event.sleep 90,
    Event.sessionOpen, Event.fetchProfile, Event.logInfo,
    Event.sessionClose, Event.sessionClose], by decide⟩

/-- C4: with communities G1 (leave succeeds), G2 (unclassified failure),
G3 (leave succeeds), leave_all leaves G1, attempts G2, never attempts G3,
and propagates the unclassified failure to the caller. -/
theorem leave_all_unclassified_aborts_and_propagates :
    leave_all [⟨1, LeaveResult.ok⟩, ⟨2, LeaveResult.otherError⟩, ⟨3, LeaveResult.ok⟩]
        = ([Event.sessionOpen, Event.leaveGuild 1, Event.logInfo, Event.sleep 10,
            Event.leaveGuild 2, Event.sleep 10, Event.sessionClose],
           PyResult.raised PyErr.unclassified)
    ∧ (leave_all [⟨1, LeaveResult.ok⟩, ⟨2, LeaveResult.otherError⟩,
          ⟨3, LeaveResult.ok⟩]).1.count (Event.leaveGuild 3) = 0 := by
  decide

/-- C5: with communities G1 (leave succeeds), G2 (transient HTTP failure),
G3 (leave succeeds), leave_all attempts each guild exactly once, logs
exactly one warning (for G2) and two successes, does not abort, and three
10-unit pacing delays are observed. -/
theorem leave_all_transient_warns_and_continues :
    (leave_all [⟨1, LeaveResult.ok⟩, ⟨2, LeaveResult.httpError⟩, ⟨3, LeaveResult.ok⟩]).2
        = PyResult.ok ()
    ∧ (leave_all [⟨1, LeaveResult.ok⟩, ⟨2, LeaveResult.httpError⟩,
          ⟨3, LeaveResult.ok⟩]).1.count (Event.leaveGuild 1) = 1
    ∧ (leave_all [⟨1, LeaveResult.ok⟩, ⟨2, LeaveResult.httpError⟩,
          ⟨3, LeaveResult.ok⟩]).1.count (Event.leaveGuild 2) = 1
    ∧ (leave_all [⟨1, LeaveResult.ok⟩, ⟨2, LeaveResult.httpError⟩,
          ⟨3, LeaveResult.ok⟩]).1.count (Event.leaveGuild 3) = 1
    ∧ (leave_all [⟨1, LeaveResult.ok⟩, ⟨2, LeaveResult.httpError⟩,
          ⟨3, LeaveResult.ok⟩]).1.count Event.logWarning = 1
    ∧ (leave_all [⟨1, LeaveResult.ok⟩, ⟨2, LeaveResult.httpError⟩,
          ⟨3, LeaveResult.ok⟩]).1.count Event.logInfo = 2
    ∧ (leave_all [⟨1, LeaveResult.ok⟩, ⟨2, LeaveResult.httpError⟩,
          ⟨3, LeaveResult.ok⟩]).1.countP Event.isSleepTen = 3 := by
  decide

/-- C6: in leave_all and unblock_all a 10 time-unit pacing delay fires
after every attempted per-item action regardless of outcome: the number of
10-unit sleeps always equals the number of attempts, and on the fatal path
the trace ends with the pacing delay followed by the session close, so the
delay fires before the exception reaches the caller. -/
theorem pacing_delay_after_every_attempt (gs : List GuildSpec) (us : List UserSpec) :
    (leave_all gs).1.countP Event.isSleepTen
        = (leave_all gs).1.countP Event.isLeaveAttempt
    ∧ (unblock_all us).1.countP Event.isSleepTen
        = (unblock_all us).1.countP Event.isUnblockAttempt
    ∧ (∀ e, (leave_all gs).2 = PyResult.raised e →
         ∃ pre, (leave_all gs).1 = pre ++ [Event.sleep 10, Event.sessionClose])
    ∧ (∀ e, (unblock_all us).2 = PyResult.raised e →
         ∃ pre, (unblock_all us).1 = pre ++ [Event.sleep 10, Event.sessionClose]) := by
  refine ⟨?_, ?_, ?_, ?_⟩
  · rcases hg : leave_guilds gs with ⟨evs, r⟩
    have hc := leave_guilds_sleep_count gs
    rw [hg] at hc
    simp only at hc
    simp [leave_all, hg, aexit_close, List.countP_cons, List.countP_append,
      Event.isSleepTen, Event.isLeaveAttempt, hc]
  · rcases hu : unblock_users us with ⟨evs, r⟩
    have hc := unblock_users_sleep_count us
    rw [hu] at hc
    simp only at hc
    simp [unblock_all, hu, aexit_close, List.countP_cons, List.countP_append,
      Event.isSleepTen, Event.isUnblockAttempt, hc]
  · intro e he
    rcases hg : leave_guilds gs with ⟨evs, r⟩
    have hr : r = PyResult.raised e := by
      have : (leave_all gs).2 = r := by simp [leave_all, hg]
      rw [this] at he
      exact he
    obtain ⟨pre, hpre⟩ := leave_guilds_fatal_ends_with_sleep gs e (by rw [hg, hr])
    rw [hg] at hpre
    simp only at hpre
    refine ⟨Event.sessionOpen :: pre, ?_⟩
    simp [leave_all, hg, aexit_close, hpre]
  · intro e he
    rcases hu : unblock_users us with ⟨evs, r⟩
    have hr : r = PyResult.raised e := by
      have : (unblock_all us).2 = r := by simp [unblock_all, hu]
      rw [this] at he
      exact he
    obtain ⟨pre, hpre⟩ := unblock_users_fatal_ends_with_sleep us e (by rw [hu, hr])
    rw [hu] at hpre
    simp only at hpre
    refine ⟨Event.sessionOpen :: pre, ?_⟩
    simp [unblock_all, hu, aexit_close, hpre]

/-- Witness for C6: on a fatal leave the 10-unit delay still fires before
the exception propagates. -/
theorem pacing_delay_after_every_attempt_witness :
    ∃ pre, (leave_all [⟨1, LeaveResult.otherError⟩]).1
      = pre ++ [Event.sleep 10, Event.sessionClose] :=
  (pacing_delay_after_every_attempt [⟨1, LeaveResult.otherError⟩]
      [⟨1, false, true, LeaveResult.otherError⟩]).2.2.1
    PyErr.unclassified (by decide)

/-- C7 counterexample: the claim says unblock_all attempts to unblock
exactly the enumerated blocked non-self users for every enumerated user
set, but when an unblock raises an unclassified exception the loop aborts,
so a later blocked user is never attempted. -/
theorem unblock_all_exactness_fails_under_fatal :
    ¬ (unblock_attempts (unblock_all
          [⟨1, false, true, LeaveResult.otherError⟩,
           ⟨2, false, true, LeaveResult.ok⟩]).1
        = List.filter (fun u => !u.is_self && u.blocked)
            [⟨1, false, true, LeaveResult.otherError⟩,
             ⟨2, false, true, LeaveResult.ok⟩]) := by
  decide

/-- C7 (amended): unblock_all never attempts to unblock the client.user
object even if it appears in the enumerated user set and never attempts a
user whose is_blocked() is false; provided no unblock attempt raises an
unclassified exception, it attempts exactly the enumerated users that are
blocked and not the own identity of the account, in enumeration order. -/
theorem unblock_all_skips_self_and_unblocked (users : List UserSpec) :
    (∀ v ∈ unblock_attempts (unblock_all users).1,
        v.is_self = false ∧ v.blocked = true)
    ∧ ((∀ u ∈ users, u.result ≠ LeaveResult.otherError) →
        unblock_attempts (unblock_all users).1
          = users.filter fun u => !u.is_self && u.blocked) := by
  constructor
  · rw [unblock_all_attempts_eq]
    exact attempted_users_good users
  · intro h
    rw [unblock_all_attempts_eq]
    exact attempted_users_exact users h

/-- Witness for C7: with a self user, an unblocked user and a blocked user
enumerated, only the blocked non-self user is attempted. -/
theorem unblock_all_skips_self_and_unblocked_witness :
    unblock_attempts (unblock_all
        [⟨0, true, true, LeaveResult.ok⟩, ⟨1, false, false, LeaveResult.ok⟩,
         ⟨2, false, true, LeaveResult.ok⟩]).1
      = [⟨2, false, true, LeaveResult.ok⟩] := by
  have h := (unblock_all_skips_self_and_unblocked
      [⟨0, true, true, LeaveResult.ok⟩, ⟨1, false, false, LeaveResult.ok⟩,
       ⟨2, false, true, LeaveResult.ok⟩]).2 (by decide)
  rw [h]
  decide

/-- C8: in each batch fan-out every per-account task is created, in input
order, before any task is awaited; tasks are awaited in launch order; and
when the operation of some account raises an unclassified error while all
earlier ones return, the batch caller observes exactly that first failure:
the event trace is the creations of all accounts followed by the awaits of
the accounts up to and including the failing one. -/
theorem batch_fanout_creates_all_then_awaits_in_order
    (gpre gpost : List (List GuildSpec)) (gbad : List GuildSpec) (ge : PyErr)
    (upre upost : List (List UserSpec)) (ubad : List UserSpec) (ue : PyErr)
    (vpre vpost : List VAccount) (vbad : VAccount) (ve : PyErr)
    (hgpre : ∀ gs ∈ gpre, (leave_all gs).2 = PyResult.ok ())
    (hgbad : (leave_all gbad).2 = PyResult.raised ge)
    (hupre : ∀ us ∈ upre, (unblock_all us).2 = PyResult.ok ())
    (hubad : (unblock_all ubad).2 = PyResult.raised ue)
    (hvpre : ∀ a ∈ vpre, ∃ b, verify_result a = some (PyResult.ok b))
    (hvbad : verify_result vbad = some (PyResult.raised ve)) :
    leave_all_as_all (gpre ++ gbad :: gpost)
        = ((gpre ++ gbad :: gpost).map BatchEvent.create
             ++ (gpre ++ [gbad]).map BatchEvent.await, some (PyResult.raised ge))
    ∧ unblock_all_as_all (upre ++ ubad :: upost)
        = ((upre ++ ubad :: upost).map BatchEvent.create
             ++ (upre ++ [ubad]).map BatchEvent.await, some (PyResult.raised ue))
    ∧ verify_all (vpre ++ vbad :: vpost)
        = ((vpre ++ vbad :: vpost).map BatchEvent.create
             ++ (vpre ++ [vbad]).map BatchEvent.await, some (PyResult.raised ve)) := by
  refine ⟨?_, ?_, ?_⟩
  · exact run_batch_first_failure _ gpre gpost gbad ge
      (fun a ha => by simp [hgpre a ha]) (by simp [hgbad])
  · exact run_batch_first_failure _ upre upost ubad ue
      (fun a ha => by simp [hupre a ha]) (by simp [hubad])
  · exact verify_all_first_failure vpre vpost vbad ve hvpre hvbad

/-- Witness for C8: concrete batches where the first, second and second
account respectively fails with an unclassified error; every creation
precedes every await and the first failure in launch order is observed. -/
theorem batch_fanout_creates_all_then_awaits_in_order_witness :
    leave_all_as_all [[⟨1, LeaveResult.otherError⟩], []]
        = ([BatchEvent.create [⟨1, LeaveResult.otherError⟩], BatchEvent.create [],
            BatchEvent.await [⟨1, LeaveResult.otherError⟩]],
           some (PyResult.raised PyErr.unclassified))
    ∧ unblock_all_as_all
          [[⟨5, false, true, LeaveResult.ok⟩], [⟨6, false, true, LeaveResult.otherError⟩]]
        = ([BatchEvent.create [⟨5, false, true, LeaveResult.ok⟩],
            BatchEvent.create [⟨6, false, true, LeaveResult.otherError⟩],
            BatchEvent.await [⟨5, false, true, LeaveResult.ok⟩],
            BatchEvent.await [⟨6, false, true, LeaveResult.otherError⟩]],
           some (PyResult.raised PyErr.unclassified))
    ∧ verify_all [(1, [FetchResult.ok]), (2, [FetchResult.otherError]), (3, [FetchResult.ok])]
        = ([BatchEvent.create (1, [FetchResult.ok]),
            BatchEvent.create (2, [FetchResult.otherError]),
            BatchEvent.create (3, [FetchResult.ok]),
            BatchEvent.await (1, [FetchResult.ok]),
            BatchEvent.await (2, [FetchResult.otherError])],
           some (PyResult.raised PyErr.unclassified)) := by
  have h := batch_fanout_creates_all_then_awaits_in_order
      [] [[]] [⟨1, LeaveResult.otherError⟩] PyErr.unclassified
      [[⟨5, false, true, LeaveResult.ok⟩]] []
      [⟨6, false, true, LeaveResult.otherError⟩] PyErr.unclassified
      [(1, [FetchResult.ok])] [(3, [FetchResult.ok])]
      (2, [FetchResult.otherError]) PyErr.unclassified
      (by decide) (by decide) (by decide) (by decide) (by decide) (by decide)
  exact ⟨h.1.trans (by decide), h.2.1.trans (by decide), h.2.2.trans (by decide)⟩

/-- C9: every operation that enters the session scope closes the session on
every exit path: in any terminating verify_account trace and in every
leave_all and unblock_all trace, session opens and closes balance, and the
scope exit issues a close exactly when the session is not already closed. -/
theorem session_closed_on_every_exit_path
    (frs : List FetchResult) (evs : List Event) (r : PyResult Bool)
    (gs : List GuildSpec) (us : List UserSpec) (closedAlready : Bool)
    (h : verify_account frs = some (evs, r)) :
    evs.count Event.sessionOpen = evs.count Event.sessionClose
    ∧ (leave_all gs).1.count Event.sessionOpen
        = (leave_all gs).1.count Event.sessionClose
    ∧ (unblock_all us).1.count Event.sessionOpen
        = (unblock_all us).1.count Event.sessionClose
    ∧ (aexit_close closedAlready).count Event.sessionClose
        = (if closedAlready then 0 else 1) := by
  refine ⟨verify_account_sessions_balanced frs evs r h, ?_, ?_, ?_⟩
  · rcases hg : leave_guilds gs with ⟨evs2, r2⟩
    have hn := leave_guilds_no_session gs
    rw [hg] at hn
    simp only at hn
    simp [leave_all, hg, aexit_close, List.count_cons, List.count_append, hn.1, hn.2]
  · rcases hu : unblock_users us with ⟨evs2, r2⟩
    have hn := unblock_users_no_session us
    rw [hu] at hn
    simp only at hn
    simp [unblock_all, hu, aexit_close, List.count_cons, List.count_append, hn.1, hn.2]
  · rcases hc : closedAlready <;> simp [aexit_close, hc]

/-- Witness for C9 at a terminating verify_account run, empty guild and
user lists, and an already-closed session at scope exit. -/
theorem session_closed_on_every_exit_path_witness :
    [Event.sessionOpen, Event.fetchProfile, Event.logInfo,
        Event.sessionClose].count Event.sessionOpen
      = [Event.sessionOpen, Event.fetchProfile, Event.logInfo,
          Event.sessionClose].count Event.sessionClose
    ∧ (leave_all []).1.count Event.sessionOpen
        = (leave_all []).1.count Event.sessionClose
    ∧ (unblock_all []).1.count Event.sessionOpen
        = (unblock_all []).1.count Event.sessionClose
    ∧ (aexit_close true).count Event.sessionClose = (if true then 0 else 1) :=
  session_closed_on_every_exit_path [FetchResult.ok]
    [Event.sessionOpen, Event.fetchProfile, Event.logInfo, Event.sessionClose]
    (PyResult.ok true) [] [] true rfl

/-- C10: get_logging_level is total and case-insensitive: its value on any
string equals its value on the upper-cased string, and it agrees with the
spec-side table sending the seven level names to their numeric levels and
every other string to NOTSET = 0. -/
theorem get_logging_level_case_insensitive_total (s : List Char) :
    get_logging_level s = get_logging_level (s.map Char.toUpper)
    ∧ get_logging_level s = logging_level_of_name_spec (s.map Char.toUpper) := by
  have hspec : ∀ t : List Char,
      get_logging_level t = logging_level_of_name_spec (t.map Char.toUpper) :=
    fun t => rfl
  refine ⟨?_, hspec s⟩
  rw [hspec s, hspec (s.map Char.toUpper), map_toUpper_idem]

end ColdCaller
